import Mathlib

/-!
Shallow embedding of the governance kernel (Python package
src/python/governance_kernel) and proofs of its specification claims.

Conventions of the embedding:
- Python dictionaries of known shape (context, action, canonical state)
  become structures whose fields model the keys the code reads; a boolean
  key read with a default models absence as the default value.
- String-valued keys that the code may read while they hold an explicit
  Python None (so that a method call on the value raises) are modelled by
  the three-valued type PyStr.
- Code that can raise returns Except EncError; raising-free code is a
  plain function.
- Wall-clock quantities (timestamps, latency, uuid) are inputs of the
  model, never computed.
-/

deriving instance DecidableEq for Except

namespace GovKernel

/-- Prefix test on character lists, the model of str.startswith used inside
the substring test below. -/
def charsPre : List Char → List Char → Bool
  | [], _ => true
  | _ :: _, [] => false
  | a :: n, b :: h => a == b && charsPre n h

/-- Substring containment on character lists: the model of the Python
expression needle in hay on strings. -/
def charsSub (n : List Char) : List Char → Bool
  | [] => n.isEmpty
  | h :: t => charsPre n (h :: t) || charsSub n t

/-- Python membership test needle in hay for strings. -/
def py_in (needle hay : String) : Bool := charsSub needle.data hay.data

/-- Python str.lower, on the ASCII alphabet the code and its keys use. -/
def py_lower (s : String) : String := String.mk (s.data.map Char.toLower)

/-- Python s.startswith(pre). -/
def py_startswith (s pre : String) : Bool := charsPre pre.data s.data

/-- Python s.split(sep) on the underlying character list: the list of
separator-free segments, empty segments included. -/
def split_chars (sep : Char) : List Char → List (List Char)
  | [] => [[]]
  | c :: t =>
    match split_chars sep t with
    | [] => [[]]
    | h :: r => if c == sep then [] :: h :: r else (c :: h) :: r

/-- Digit-string accumulator of the int() model. -/
def parse_nat_aux (acc : Nat) : List Char → Option Nat
  | [] => some acc
  | c :: t => if c.isDigit then parse_nat_aux (acc * 10 + (c.toNat - 48)) t else none

/-- Python int(s) on the decimal strings the constraint names use: an
optional minus sign followed by at least one digit; anything else
raises ValueError, modelled as none. -/
def py_int (s : String) : Option Int :=
  match s.data with
  | [] => none
  | c :: t =>
    if c == '-' then
      match t with
      | [] => none
      | _ => (parse_nat_aux 0 t).map (fun n => -(n : Int))
    else (parse_nat_aux 0 (c :: t)).map (fun n => (n : Int))

/-- Python truthiness of an optional string: None and the empty string are
falsy, any other string is truthy. -/
def truthy_str : Option String → Bool
  | none => false
  | some s => !(s == "")

/-- Python x or y on optional strings: yields x when x is truthy,
otherwise y. -/
def py_or (x y : Option String) : Option String := if truthy_str x then x else y

/-- A dictionary slot that may be absent, hold an explicit Python None, or
hold a string.  Needed because context.get(key, fallback) followed by a
string method raises when the stored value is None. -/
inductive PyStr where
  | absent
  | null
  | str (s : String)
deriving DecidableEq

/-- A dictionary slot that may be absent, hold an explicit Python None, or
hold a list of strings.  Needed because iterating or extending with a
stored None raises TypeError. -/
inductive PyList where
  | absent
  | null
  | list (l : List String)
deriving DecidableEq

/-- The value context.get(key, []) yields for a PyList slot that is not an
explicit None. -/
def py_list_elems : PyList → List String
  | PyList.list l => l
  | _ => []

/-- The exceptions the state encoder can raise: an AttributeError from
calling a string method on None, a TypeError from iterating or extending
with None, and a ValueError from int() on a non-numeric constraint
suffix. -/
inductive EncError where
  | attrNone (field : String)
  | typeErr (field : String)
  | intParse (s : String)
deriving DecidableEq

/-- Context dictionary: the keys read by the kernel pipeline
(state_encoder.py and handlers/registry.py).  String slots the code calls
startswith on, and the hard_constraints slot the code iterates, are
three-valued (absent, explicit None, value) because a stored None raises;
boolean keys read with a False default collapse absence into false. -/
structure Context where
  authority_level : Option String := none
  consequence_bearer : PyStr := PyStr.absent
  decision_maker : PyStr := PyStr.absent
  human_in_authority_chain : Bool := false
  human_signature : Bool := false
  hard_constraints : PyList := PyList.absent
  violated_constraints : List String := []
  interpretation_authority : Bool := false
  affects_group : Option String := none
  delegated_authority_from_affected : Bool := false

/-- Action dictionary: the keys read by the kernel pipeline.  The type
slot the code calls lower() on and the violates_constraints slot the code
extends with are three-valued because a stored None raises; the field
violates_named models the generic lookup action.get("violates_" ++ c,
False) for arbitrary constraint names c. -/
structure Action where
  type : PyStr := PyStr.absent
  requires_authority : Option String := none
  is_binding : Bool := false
  makes_decision : Bool := false
  makes_interpretation : Bool := false
  affects_group : Option String := none
  violates_constraints : PyList := PyList.absent
  estimated_time_minutes : Int := 0
  passes_through_residential : Bool := false
  cargo_is_hazmat : Bool := false
  violates_named : String → Bool := fun _ => false

/-- The canonical state produced by StateEncoder.encode. -/
structure CState where
  authority_level : String
  requires_authority : String
  is_binding_action : Bool
  human_in_authority_chain : Bool
  consequence_bearer : Option String
  makes_decision : Bool
  hard_constraints : List String
  violated_constraints : List String
  makes_interpretation : Bool
  interpretation_authority : Bool
  affects_group : Option String
  decision_maker : Option String
  delegated_authority_from_affected : Bool
deriving DecidableEq

/-- The fixed keyword list of StateEncoder._is_binding_action. -/
def binding_types : List String :=
  ["execute", "commit", "sign", "approve", "transfer", "deploy"]

/-- StateEncoder._is_binding_action: the action type contains a binding
keyword (case-insensitively) or carries an explicit is_binding flag.
Python computes action.get("type", "").lower(), which raises
AttributeError when the stored type is an explicit None. -/
def is_binding_action (a : Action) : Except EncError Bool :=
  match a.type with
  | PyStr.null => Except.error (EncError.attrNone "type")
  | t =>
    let s := match t with | PyStr.str s => s | _ => ""
    let tl := py_lower s
    Except.ok (binding_types.any (fun bt => py_in bt tl) || a.is_binding)

/-- StateEncoder._has_human_authority.  Python evaluates
context.get("consequence_bearer", "").startswith("human") first, then the
same for decision_maker; each raises AttributeError when the stored value
is an explicit None. -/
def has_human_authority (c : Context) : Except EncError Bool :=
  match c.consequence_bearer with
  | PyStr.null => Except.error (EncError.attrNone "consequence_bearer")
  | cb =>
    match c.decision_maker with
    | PyStr.null => Except.error (EncError.attrNone "decision_maker")
    | dm =>
      let cbs := match cb with | PyStr.str s => s | _ => ""
      let dms := match dm with | PyStr.str s => s | _ => ""
      Except.ok (py_startswith cbs "human" || py_startswith dms "human" ||
        c.human_in_authority_chain || c.human_signature)

/-- StateEncoder._action_violates_constraint.  The time_limit_ branch runs
int(constraint.split("_")[-1]), which raises ValueError when the suffix is
not numeric. -/
def action_violates_constraint (a : Action) (c : String) : Except EncError Bool :=
  if c = "no_residential_hazmat" then
    Except.ok (a.passes_through_residential && a.cargo_is_hazmat)
  else if py_startswith c "time_limit_" then
    let suffix := String.mk ((split_chars '_' c.data).getLastD [])
    match py_int suffix with
    | some limit => Except.ok (a.estimated_time_minutes > limit)
    | none => Except.error (EncError.intParse suffix)
  else
    Except.ok (a.violates_named ("violates_" ++ c))

/-- The loop of StateEncoder._check_constraint_violations over the hard
constraints, appending each constraint the action violates. -/
def violated_of (a : Action) : List String → Except EncError (List String)
  | [] => Except.ok []
  | c :: rest =>
    match action_violates_constraint a c with
    | Except.error e => Except.error e
    | Except.ok v =>
      match violated_of a rest with
      | Except.error e => Except.error e
      | Except.ok vs => Except.ok (if v then c :: vs else vs)

/-- The violated.extend(action["violates_constraints"]) step of
StateEncoder._check_constraint_violations: skipped when the key is absent,
a TypeError when the stored value is None. -/
def base_violations (a : Action) : Except EncError (List String) :=
  match a.violates_constraints with
  | PyList.absent => Except.ok []
  | PyList.null => Except.error (EncError.typeErr "violates_constraints")
  | PyList.list l => Except.ok l

/-- StateEncoder._check_constraint_violations: the action-declared list
followed by the hard constraints the pattern matcher flags.  Iterating a
hard_constraints slot holding an explicit None raises TypeError. -/
def check_constraint_violations (ctx : Context) (a : Action) :
    Except EncError (List String) :=
  match base_violations a with
  | Except.error e => Except.error e
  | Except.ok base =>
    match ctx.hard_constraints with
    | PyList.null => Except.error (EncError.typeErr "hard_constraints")
    | hc =>
      match violated_of a (py_list_elems hc) with
      | Except.error e => Except.error e
      | Except.ok vs => Except.ok (base ++ vs)

/-- StateEncoder.encode.  The binding classification runs first, then the
human-authority probe, then the constraint scan, matching the statement
order of the Python method and hence the order its exceptions surface. -/
def encode (ctx : Context) (a : Action) : Except EncError CState :=
  match is_binding_action a with
  | Except.error e => Except.error e
  | Except.ok isb =>
    match has_human_authority ctx with
    | Except.error e => Except.error e
    | Except.ok hia =>
      match check_constraint_violations ctx a with
      | Except.error e => Except.error e
      | Except.ok violated =>
        Except.ok {
          authority_level := ctx.authority_level.getD "none"
          requires_authority := a.requires_authority.getD "none"
          is_binding_action := isb
          human_in_authority_chain := hia
          consequence_bearer :=
            match ctx.consequence_bearer with
            | PyStr.str s => some s
            | _ => none
          makes_decision := a.makes_decision
          hard_constraints := py_list_elems ctx.hard_constraints
          violated_constraints := violated
          makes_interpretation := a.makes_interpretation
          interpretation_authority := ctx.interpretation_authority
          affects_group := py_or a.affects_group ctx.affects_group
          decision_maker :=
            match ctx.decision_maker with
            | PyStr.str s => some s
            | _ => none
          delegated_authority_from_affected := ctx.delegated_authority_from_affected }

/-- The authority_levels dictionary of AIT1_Invariant.check, including the
dict.get default of 0 for any label outside the four levels. -/
def authority_levels (s : String) : Nat :=
  if s == "none" then 0
  else if s == "advisory" then 1
  else if s == "binding" then 2
  else if s == "autonomous" then 3
  else 0

/-- AIT1_Invariant.check: granted rank at least required rank. -/
def AIT1_check (st : CState) : Bool :=
  decide (authority_levels st.requires_authority ≤ authority_levels st.authority_level)

/-- BG1_Invariant.check: a binding action needs a human in the chain. -/
def BG1_check (st : CState) : Bool :=
  if st.is_binding_action then st.human_in_authority_chain else true

/-- GI1_Invariant.check: the intersection of the hard-constraint set and
the violated-constraint set must be empty. -/
def GI1_check (st : CState) : Bool :=
  (st.hard_constraints.filter (fun c => st.violated_constraints.contains c)).isEmpty

/-- MAP1_Invariant.check: an interpretive action needs interpretation
authority. -/
def MAP1_check (st : CState) : Bool :=
  if st.makes_interpretation then st.interpretation_authority else true

/-- CMP1_Invariant.check: a decision needs a non-null consequence
bearer. -/
def CMP1_check (st : CState) : Bool :=
  if st.makes_decision then st.consequence_bearer.isSome else true

/-- EXP1_Invariant.check: when both the affected group and the decision
maker are truthy they must coincide, unless authority was delegated. -/
def EXP1_check (st : CState) : Bool :=
  if truthy_str st.affects_group && truthy_str st.decision_maker then
    st.affects_group == st.decision_maker || st.delegated_authority_from_affected
  else true

/-- An invariant object: a name together with a pure predicate on the
canonical state. -/
structure Invariant where
  name : String
  check : CState → Bool

def AIT1_Invariant : Invariant := ⟨"AIT-1", AIT1_check⟩

def BG1_Invariant : Invariant := ⟨"BG-1", BG1_check⟩

def GI1_Invariant : Invariant := ⟨"GI-1", GI1_check⟩

def MAP1_Invariant : Invariant := ⟨"MAP-1", MAP1_check⟩

def CMP1_Invariant : Invariant := ⟨"CMP-1", CMP1_check⟩

def EXP1_Invariant : Invariant := ⟨"EXP-1", EXP1_check⟩

/-- GovernanceKernel._default_invariants: the fixed list of six. -/
def default_invariants : List Invariant :=
  [AIT1_Invariant, BG1_Invariant, GI1_Invariant,
   MAP1_Invariant, CMP1_Invariant, EXP1_Invariant]

/-- Verifier.check (the identical loop is inlined in GovernanceKernel.verify):
collect the names of the invariants whose check fails, in list order. -/
def Verifier.check (st : CState) : List Invariant → List String
  | [] => []
  | i :: rest =>
    if i.check st then Verifier.check st rest
    else i.name :: Verifier.check st rest

/-- A Python value as it appears in remediation payloads and sanitized log
dictionaries: a string, a list of strings, a boolean, an integer, or
None. -/
inductive Value where
  | str (s : String)
  | strs (l : List String)
  | bool (b : Bool)
  | int (n : Int)
  | vnone
deriving DecidableEq

/-- A remediation payload: the dictionary returned by a handler. -/
abbrev Remediation := List (String × Value)

/-- An apostrophe, built from its code point so the repr helper below can
quote strings the way Python does. -/
def squote : String := String.singleton (Char.ofNat 39)

/-- Python repr of a list of strings, as produced by an f-string holding a
list value. -/
def py_list_repr (l : List String) : String :=
  "[" ++ String.intercalate ", " (l.map (fun s => squote ++ s ++ squote)) ++ "]"

/-- HandlerRegistry._handle_ait1. -/
def handle_ait1 (ctx : Context) (a : Action) (_vs : List String) : Remediation :=
  let system_auth := ctx.authority_level.getD "none"
  let required_auth := a.requires_authority.getD "unknown"
  [("action", Value.str "return_to_authority"),
   ("reason", Value.str ("Action requires " ++ required_auth ++
      " authority, system has " ++ system_auth)),
   ("required_authority_level", Value.str required_auth),
   ("current_authority_level", Value.str system_auth),
   ("suggested_action", Value.str "Escalate to appropriate authority level")]

/-- HandlerRegistry._handle_bg1. -/
def handle_bg1 (_ctx : Context) (a : Action) (_vs : List String) : Remediation :=
  [("action", Value.str "require_human_authority"),
   ("reason", Value.str "Binding action requires human in authority chain"),
   ("suggested_action", Value.str "Obtain explicit human authorization before proceeding"),
   ("binding_action_type",
     match a.type with
     | PyStr.str t => Value.str t
     | _ => Value.vnone)]

/-- HandlerRegistry._handle_gi1. -/
def handle_gi1 (ctx : Context) (_a : Action) (_vs : List String) : Remediation :=
  [("action", Value.str "respect_hard_constraints"),
   ("reason", Value.str "Action violates hard constraints that cannot be optimized away"),
   ("violated_constraints", Value.strs ctx.violated_constraints),
   ("suggested_action", Value.str "Find alternative that satisfies all constraints")]

/-- HandlerRegistry._handle_map1. -/
def handle_map1 (_ctx : Context) (_a : Action) (_vs : List String) : Remediation :=
  [("action", Value.str "obtain_interpretation_authority"),
   ("reason", Value.str "Interpreting ambiguous meaning requires explicit authority"),
   ("suggested_action", Value.str "Escalate interpretation to authorized decision-maker")]

/-- HandlerRegistry._handle_cmp1. -/
def handle_cmp1 (_ctx : Context) (_a : Action) (_vs : List String) : Remediation :=
  [("action", Value.str "identify_consequence_bearer"),
   ("reason", Value.str "Decision must trace to entity that bears consequences"),
   ("suggested_action", Value.str "Explicitly identify who bears consequences of this decision")]

/-- HandlerRegistry._handle_exp1. -/
def handle_exp1 (ctx : Context) (_a : Action) (_vs : List String) : Remediation :=
  let affects := ctx.affects_group.getD "unknown"
  [("action", Value.str "delegate_to_affected"),
   ("reason", Value.str "Those who experience consequences must hold authority"),
   ("affected_group", Value.str affects),
   ("suggested_action", Value.str ("Obtain authorization from " ++ affects))]

/-- HandlerRegistry._handle_default. -/
def handle_default (_ctx : Context) (_a : Action) (vs : List String) : Remediation :=
  [("action", Value.str "block"),
   ("reason", Value.str ("Unknown invariant violations: " ++ py_list_repr vs)),
   ("suggested_action", Value.str "Review governance requirements")]

/-- The fixed priority order of HandlerRegistry._prioritize_violations. -/
def priority_order : List String :=
  ["BG-1", "GI-1", "CMP-1", "AIT-1", "EXP-1", "MAP-1"]

/-- HandlerRegistry._prioritize_violations: the first name of the fixed
order occurring among the violations, else the first violation (the Python
code indexes violations[0]; it is only called on non-empty lists, the
default here is never reached from handle). -/
def prioritize_violations (vs : List String) : String :=
  match priority_order.find? (fun n => vs.contains n) with
  | some n => n
  | none => vs.headD ""

/-- The handlers dictionary lookup self.handlers.get(name, _handle_default). -/
def get_handler (name : String) : Context → Action → List String → Remediation :=
  if name == "AIT-1" then handle_ait1
  else if name == "BG-1" then handle_bg1
  else if name == "GI-1" then handle_gi1
  else if name == "MAP-1" then handle_map1
  else if name == "CMP-1" then handle_cmp1
  else if name == "EXP-1" then handle_exp1
  else handle_default

/-- HandlerRegistry.handle. -/
def handle (vs : List String) (ctx : Context) (a : Action) : Remediation :=
  if vs.isEmpty then [("action", Value.str "allow")]
  else get_handler (prioritize_violations vs) ctx a vs

/-- VerificationResult restricted to its pure fields: the allowed flag,
the violation list and the remediation payload.  The audit id, timestamp
and latency of the dataclass are wall-clock data carried through
unchanged. -/
structure VerificationResult where
  allowed : Bool
  violations : List String
  remediation : Option Remediation
deriving DecidableEq

/-- GovernanceKernel.verify with an explicit invariant list (the kernel
stores the list at construction; the default kernel uses
default_invariants).  Statistics, latency measurement and audit logging do
not affect the returned decision and are not part of this function. -/
def verify_with (invs : List Invariant) (ctx : Context) (a : Action) :
    Except EncError VerificationResult :=
  match encode ctx a with
  | Except.error e => Except.error e
  | Except.ok st =>
    let violations := Verifier.check st invs
    let allowed := violations.isEmpty
    Except.ok {
      allowed := allowed
      violations := violations
      remediation := if allowed then none else some (handle violations ctx a) }

/-- GovernanceKernel.verify on the default kernel. -/
def verify (ctx : Context) (a : Action) : Except EncError VerificationResult :=
  verify_with default_invariants ctx a

/-- GovernanceKernel.verify_batch: one verification per action, failing at
the first raised exception as the Python list comprehension does. -/
def verify_batch (invs : List Invariant) (ctx : Context) :
    List Action → Except EncError (List VerificationResult)
  | [] => Except.ok []
  | a :: rest =>
    match verify_with invs ctx a with
    | Except.error e => Except.error e
    | Except.ok r =>
      match verify_batch invs ctx rest with
      | Except.error e => Except.error e
      | Except.ok rs => Except.ok (r :: rs)

/-- The conflict descriptor returned by
GovernanceKernel.check_invariant_conflict. -/
structure Conflict where
  type : String
  message : String
  conflicting_invariants : List String
  attempted_actions : Nat
  remediation : String
  escalation_priority : String
deriving DecidableEq

/-- Insertion of the elements of a list into an accumulator without
duplicates: one update step of the Python set all_violations.  The set is
modelled as a duplicate-free list; only membership in the result is
significant, since Python set iteration order is unspecified. -/
def insert_all (acc : List String) (l : List String) : List String :=
  l.foldl (fun acc n => if acc.contains n then acc else acc ++ [n]) acc

/-- The union over all results of their violation names, the value of
list(all_violations). -/
def union_violations (rs : List VerificationResult) : List String :=
  rs.foldl (fun acc r => insert_all acc r.violations) []

/-- GovernanceKernel.check_invariant_conflict. -/
def check_invariant_conflict (invs : List Invariant) (ctx : Context)
    (acts : List Action) : Except EncError (Option Conflict) :=
  match verify_batch invs ctx acts with
  | Except.error e => Except.error e
  | Except.ok results =>
    if results.any (fun r => r.allowed) then Except.ok none
    else Except.ok (some {
      type := "invariant_conflict"
      message := "No valid action exists - invariants in conflict"
      conflicting_invariants := union_violations results
      attempted_actions := acts.length
      remediation := "human_decision_required"
      escalation_priority := "high" })

/-- AuditLogger._sanitize applied to one key: a key containing password or
secret (case-insensitively) is sensitive. -/
def sensitive_key (k : String) : Bool :=
  py_in "password" (py_lower k) || py_in "secret" (py_lower k)

/-- AuditLogger._sanitize: replace the value of every sensitive key by the
redaction marker, keep every other entry unchanged. -/
def sanitize (d : List (String × Value)) : List (String × Value) :=
  d.map (fun kv => if sensitive_key kv.1 then (kv.1, Value.str "[REDACTED]") else kv)

/-- The non-hash fields of an audit log entry, in the shape built by
AuditLogger.log_verification.  The latency is the float carried from the
verification result, modelled as an integer count of microseconds. -/
structure EntryData where
  audit_id : String
  timestamp : String
  context : List (String × Value)
  action : List (String × Value)
  allowed : Bool
  violations : List String
  remediation : Option Remediation
  latency_us : Int
  metadata : List (String × Value)
  previous_hash : Option String
deriving DecidableEq

/-- A stored audit log entry: its data fields plus its recorded hash. -/
structure LogEntry where
  data : EntryData
  hash : String
deriving DecidableEq

/-- The mutable state of an AuditLogger: the in-memory log list and the
rolling previous-hash pointer. -/
structure LoggerState where
  logs : List LogEntry
  previous_hash : Option String
deriving DecidableEq

/-- A fresh AuditLogger. -/
def init_logger : LoggerState := ⟨[], none⟩

/-- The dictionary of non-hash fields assembled by
AuditLogger.log_verification before hashing. -/
def log_entry_data (st : LoggerState) (audit_id timestamp : String)
    (ctx act : List (String × Value)) (r : VerificationResult)
    (latency : Int) (metadata : List (String × Value)) : EntryData :=
  { audit_id := audit_id
    timestamp := timestamp
    context := sanitize ctx
    action := sanitize act
    allowed := r.allowed
    violations := r.violations
    remediation := r.remediation
    latency_us := latency
    metadata := metadata
    previous_hash := st.previous_hash }

/-- AuditLogger.log_verification, parametrized by the hash function
hashFn, the model of _calculate_hash (SHA-256 of the sorted-key JSON
serialization of the non-hash fields).  The uuid and timestamp are inputs;
the optional file write has no effect on the logger state. -/
def log_verification (hashFn : EntryData → String) (st : LoggerState)
    (audit_id timestamp : String) (ctx act : List (String × Value))
    (r : VerificationResult) (latency : Int)
    (metadata : List (String × Value)) : LoggerState :=
  let d := log_entry_data st audit_id timestamp ctx act r latency metadata
  let h := hashFn d
  { logs := st.logs ++ [⟨d, h⟩], previous_hash := some h }

/-- The loop of AuditLogger.verify_chain: walk the entries checking the
recorded previous hash against the running pointer and the stored hash
against a recomputation. -/
def chain_check (hashFn : EntryData → String) : Option String → List LogEntry → Bool
  | _, [] => true
  | prev, e :: rest =>
    if e.data.previous_hash == prev && hashFn e.data == e.hash then
      chain_check hashFn (some e.hash) rest
    else false

/-- AuditLogger.verify_chain. -/
def verify_chain (hashFn : EntryData → String) (st : LoggerState) : Bool :=
  chain_check hashFn none st.logs

/-- The caller-supplied payload of one log_verification call. -/
structure LogCall where
  audit_id : String
  timestamp : String
  context : List (String × Value)
  action : List (String × Value)
  result : VerificationResult
  latency : Int
  metadata : List (String × Value)

/-- A sequence of log_verification calls against one logger. -/
def run_calls (hashFn : EntryData → String) (st : LoggerState) :
    List LogCall → LoggerState
  | [] => st
  | c :: rest =>
    run_calls hashFn
      (log_verification hashFn st c.audit_id c.timestamp c.context c.action
        c.result c.latency c.metadata) rest

/-- Tampering with a stored log: replace the data fields of the entry at
one index while keeping its stored hash, leaving other entries alone. -/
def set_entry_data : List LogEntry → Nat → EntryData → List LogEntry
  | [], _, _ => []
  | e :: t, 0, d => ⟨d, e.hash⟩ :: t
  | e :: t, Nat.succ i, d => e :: set_entry_data t i d

/-- Concrete canonical state used by witnesses: the encoding of the empty
context and empty action. -/
def st_default : CState where
  authority_level := "none"
  requires_authority := "none"
  is_binding_action := false
  human_in_authority_chain := false
  consequence_bearer := none
  makes_decision := false
  hard_constraints := []
  violated_constraints := []
  makes_interpretation := false
  interpretation_authority := false
  affects_group := none
  decision_maker := none
  delegated_authority_from_affected := false

/-- Concrete canonical state used by witnesses: binding authority granted,
advisory authority required. -/
def st_bind_adv : CState :=
  { st_default with authority_level := "binding", requires_authority := "advisory" }

/-- Fixture: a context with the reserved hazmat hard constraint. -/
def ctx_hazmat : Context :=
  { hard_constraints := PyList.list ["no_residential_hazmat"] }

/-- Fixture: an action that routes hazmat through a residential area. -/
def act_hazmat : Action := { passes_through_residential := true, cargo_is_hazmat := true }

/-- Fixture: the canonical state encoded from ctx_hazmat and act_hazmat. -/
def st_hazmat : CState :=
  { st_default with
      hard_constraints := ["no_residential_hazmat"]
      violated_constraints := ["no_residential_hazmat"] }

/-- Fixture: the verification result of the default kernel on ctx_hazmat
and act_hazmat. -/
def r_hazmat : VerificationResult :=
  { allowed := false
    violations := ["GI-1"]
    remediation := some (handle ["GI-1"] ctx_hazmat act_hazmat) }

/-- Fixture: an action whose required authority exceeds the empty
context's granted authority. -/
def act_bind : Action := { requires_authority := some "binding" }

/-- Fixture: the verification result of the default kernel on the empty
context and act_bind. -/
def r_bind : VerificationResult :=
  { allowed := false
    violations := ["AIT-1"]
    remediation := some (handle ["AIT-1"] {} act_bind) }

/-- The substring relation of the claims: the key, lowercased, contains the
given word. -/
def ContainsCI (word k : String) : Prop :=
  ∃ s t, (py_lower k).data = s ++ word.data ++ t

/-- The four-level authority ordering exactly as the spec words it:
none=0 < advisory=1 < binding=2 < autonomous=3, undefined elsewhere.
Stated from the spec for comparison with the authority_levels dictionary of
the code. -/
def spec_authority_rank (s : String) : Option Nat :=
  if s = "none" then some 0
  else if s = "advisory" then some 1
  else if s = "binding" then some 2
  else if s = "autonomous" then some 3
  else none

/-- The hash of the last entry a walk of the log reaches, starting from a
given previous-hash pointer; the value the rolling pointer of an untampered
logger holds. -/
def last_hash (p : Option String) : List LogEntry → Option String
  | [] => p
  | e :: t => last_hash (some e.hash) t

/-- A logger state is chain-consistent when its stored log verifies and its
rolling pointer is the hash of its last entry. -/
def chain_ok (hashFn : EntryData → String) (st : LoggerState) : Prop :=
  chain_check hashFn none st.logs = true ∧
  st.previous_hash = last_hash none st.logs

/-- Fixture: a hash function that depends only on the allowed flag, enough
to distinguish an entry from its flipped copy. -/
def hash_allowed : EntryData → String := fun d => if d.allowed then "A" else "B"

/-- Fixture: one logged verification call. -/
def call0 : LogCall :=
  { audit_id := "id-0"
    timestamp := "t0"
    context := []
    action := []
    result := { allowed := true, violations := [], remediation := none }
    latency := 5
    metadata := [] }

/-- Fixture: the entry data produced by logging call0 on a fresh logger. -/
def data0 : EntryData :=
  { audit_id := "id-0"
    timestamp := "t0"
    context := []
    action := []
    allowed := true
    violations := []
    remediation := none
    latency_us := 5
    metadata := []
    previous_hash := none }

/-- Fixture: the stored entry for call0 under hash_allowed. -/
def entry0 : LogEntry := ⟨data0, "A"⟩

/-- Fixture: data0 with its allowed flag flipped and nothing else
recomputed. -/
def data0_tampered : EntryData := { data0 with allowed := false }

/-! Helper lemmas shared by the claim theorems. -/

theorem charsPre_iff (n l : List Char) : charsPre n l = true ↔ ∃ t, l = n ++ t := by
  induction n generalizing l with
  | nil => simp [charsPre]
  | cons a n ih =>
    cases l with
    | nil => simp [charsPre]
    | cons b l =>
      simp only [charsPre, Bool.and_eq_true, beq_iff_eq, ih, List.cons_append,
        List.cons.injEq]
      constructor
      · rintro ⟨hab, t, ht⟩
        exact ⟨t, hab.symm, ht⟩
      · rintro ⟨t, hba, ht⟩
        exact ⟨hba.symm, t, ht⟩

theorem charsSub_iff (n l : List Char) :
    charsSub n l = true ↔ ∃ s t, l = s ++ n ++ t := by
  induction l with
  | nil =>
    simp only [charsSub, List.isEmpty_iff]
    constructor
    · rintro rfl
      exact ⟨[], [], rfl⟩
    · rintro ⟨s, t, h⟩
      rcases List.append_eq_nil.mp h.symm with ⟨h1, h2⟩
      exact (List.append_eq_nil.mp h1).2
  | cons h l ih =>
    simp only [charsSub, Bool.or_eq_true, charsPre_iff, ih]
    constructor
    · rintro (⟨t, ht⟩ | ⟨s, t, ht⟩)
      · exact ⟨[], t, by simp [ht]⟩
      · exact ⟨h :: s, t, by simp [ht]⟩
    · rintro ⟨s, t, ht⟩
      cases s with
      | nil =>
        left
        exact ⟨t, by simpa using ht⟩
      | cons x s =>
        right
        simp only [List.cons_append, List.cons.injEq] at ht
        exact ⟨s, t, ht.2⟩

theorem py_in_iff (a b : String) :
    py_in a b = true ↔ ∃ s t, b.data = s ++ a.data ++ t := by
  simp [py_in, charsSub_iff]

theorem sensitive_key_iff (k : String) :
    sensitive_key k = true ↔ ContainsCI "password" k ∨ ContainsCI "secret" k := by
  simp [sensitive_key, ContainsCI, py_in_iff]

/-- C9: every field of a dictionary passed through the audit sanitizer whose
name contains password or secret (case-insensitively) has its value replaced
by the marker [REDACTED] at the same position, and every other field is
unchanged. -/
theorem C9_sanitize_redacts (d : List (String × Value)) (i : Nat)
    (k : String) (v : Value) (h : d[i]? = some (k, v)) :
    (ContainsCI "password" k ∨ ContainsCI "secret" k →
      (sanitize d)[i]? = some (k, Value.str "[REDACTED]")) ∧
    (¬(ContainsCI "password" k ∨ ContainsCI "secret" k) →
      (sanitize d)[i]? = some (k, v)) := by
  have hs : (sanitize d)[i]? =
      some (if sensitive_key k then (k, Value.str "[REDACTED]") else (k, v)) := by
    simp [sanitize, List.getElem?_map, h]
  constructor
  · intro hsens
    rw [hs, if_pos ((sensitive_key_iff k).mpr hsens)]
  · intro hnot
    rw [hs, if_neg (fun hk => hnot ((sensitive_key_iff k).mp hk))]

/-- Witness for C9 at a concrete dictionary: a key containing Password is
redacted and a plain key is untouched. -/
theorem C9_witness :
    (sanitize [("api_Password", Value.int 3), ("user", Value.str "bob")])[0]? =
      some ("api_Password", Value.str "[REDACTED]") ∧
    (sanitize [("api_Password", Value.int 3), ("user", Value.str "bob")])[1]? =
      some ("user", Value.str "bob") := by
  constructor
  · exact (C9_sanitize_redacts [("api_Password", Value.int 3), ("user", Value.str "bob")]
      0 "api_Password" (Value.int 3) rfl).1
      (Or.inl ⟨"api_".data, [], by decide⟩)
  · exact (C9_sanitize_redacts [("api_Password", Value.int 3), ("user", Value.str "bob")]
      1 "user" (Value.str "bob") rfl).2
      (by
        intro hsens
        have hk : sensitive_key "user" = true := (sensitive_key_iff "user").mpr hsens
        revert hk
        decide)

/-- C7: on the four-level ordering none < advisory < binding < autonomous,
the AIT-1 check holds exactly when the granted rank is at least the
required rank. -/
theorem C7_ait1_rank (st : CState) (g r : Nat)
    (hg : spec_authority_rank st.authority_level = some g)
    (hr : spec_authority_rank st.requires_authority = some r) :
    AIT1_check st = true ↔ r ≤ g := by
  unfold spec_authority_rank at hg hr
  split_ifs at hg hr <;>
    simp_all [AIT1_check, authority_levels]

/-- Witness for C7 at a concrete state: granted binding (rank 2), required
advisory (rank 1), and the check passes. -/
theorem C7_witness : AIT1_check st_bind_adv = true ↔ 1 ≤ 2 :=
  C7_ait1_rank st_bind_adv 2 1 (by decide) (by decide)

/-- C2 status evidence: at the advisory scenario of the spec the code
allows the action with no violations, because the authority_levels
dictionary ranks the unrecognized label binding_decision as 0.  The
repository example (examples/unai/basic_assistant.py) produces exactly
this label for binding replies and expects them to be blocked. -/
theorem C2_scenario_eval :
    verify { authority_level := some "advisory" }
      { type := PyStr.str "respond", requires_authority := some "binding_decision" } =
    Except.ok { allowed := true, violations := [], remediation := none } := by
  decide

/-- C10: conflict detection on an empty candidate list takes the
all-blocked branch vacuously and returns a descriptor with zero attempted
actions and no conflicting invariants. -/
theorem C10_empty_candidates (invs : List Invariant) (ctx : Context) :
    check_invariant_conflict invs ctx [] =
      Except.ok (some {
        type := "invariant_conflict"
        message := "No valid action exists - invariants in conflict"
        conflicting_invariants := []
        attempted_actions := 0
        remediation := "human_decision_required"
        escalation_priority := "high" }) := rfl

theorem Verifier.check_eq_filter_map (st : CState) (invs : List Invariant) :
    Verifier.check st invs = (invs.filter (fun i => ! i.check st)).map (fun i => i.name) := by
  induction invs with
  | nil => rfl
  | cons i rest ih =>
    by_cases h : i.check st <;> simp [Verifier.check, List.filter, h, ih]

theorem Verifier.mem_check_iff (st : CState) (invs : List Invariant) (n : String) :
    n ∈ Verifier.check st invs ↔ ∃ i ∈ invs, i.name = n ∧ i.check st = false := by
  rw [Verifier.check_eq_filter_map]
  simp only [List.mem_map, List.mem_filter, Bool.not_eq_eq_eq_not, Bool.not_true]
  constructor
  · rintro ⟨i, ⟨hmem, hfail⟩, hname⟩
    exact ⟨i, hmem, hname, hfail⟩
  · rintro ⟨i, hmem, hname, hfail⟩
    exact ⟨i, ⟨hmem, hfail⟩, hname⟩

/-- C6: the result of verify lists exactly the names of the invariants of
the kernel's list whose check fails on the encoded state, in list order
with no reordering and no deduplication, and the allowed flag holds exactly
when that list is empty. -/
theorem C6_verify_violations (invs : List Invariant) (ctx : Context) (a : Action)
    (st : CState) (r : VerificationResult)
    (hst : encode ctx a = Except.ok st)
    (hr : verify_with invs ctx a = Except.ok r) :
    r.violations = (invs.filter (fun i => ! i.check st)).map (fun i => i.name) ∧
    (r.allowed = true ↔ r.violations = []) := by
  unfold verify_with at hr
  rw [hst] at hr
  have hr' : r = {
      allowed := (Verifier.check st invs).isEmpty
      violations := Verifier.check st invs
      remediation := if (Verifier.check st invs).isEmpty then none
        else some (handle (Verifier.check st invs) ctx a) } := by
    cases hr
    rfl
  subst hr'
  refine ⟨Verifier.check_eq_filter_map st invs, ?_⟩
  simp [List.isEmpty_iff]

/-- Witness for C6 at a concrete allowed verification: the empty context
and empty action violate nothing. -/
theorem C6_witness :
    ([] : List String) =
      (default_invariants.filter (fun i => ! i.check st_default)).map (fun i => i.name) ∧
    ((true : Bool) = true ↔ ([] : List String) = []) :=
  C6_verify_violations default_invariants {} {} st_default
    { allowed := true, violations := [], remediation := none } (by decide) (by decide)

theorem GI1_check_true_iff (st : CState) :
    GI1_check st = true ↔ ∀ c ∈ st.hard_constraints, c ∉ st.violated_constraints := by
  simp [GI1_check, List.isEmpty_iff, List.filter_eq_nil_iff, List.elem_iff]

theorem GI1_check_false_iff (st : CState) :
    GI1_check st = false ↔ ∃ c ∈ st.hard_constraints, c ∈ st.violated_constraints := by
  rw [← Bool.not_eq_true, GI1_check_true_iff]
  push_neg
  rfl

theorem mem_check_default_gi1 (st : CState) :
    "GI-1" ∈ Verifier.check st default_invariants ↔ GI1_check st = false := by
  rw [Verifier.mem_check_iff]
  constructor
  · rintro ⟨i, hi, hname, hfail⟩
    simp only [default_invariants, List.mem_cons, List.not_mem_nil, or_false] at hi
    rcases hi with rfl | rfl | rfl | rfl | rfl | rfl <;>
      first
      | exact hfail
      | exact absurd hname (by decide)
  · intro hfail
    exact ⟨GI1_Invariant, by simp [default_invariants], rfl, hfail⟩

theorem verify_with_ok (invs : List Invariant) (ctx : Context) (a : Action)
    (st : CState) (r : VerificationResult)
    (hst : encode ctx a = Except.ok st)
    (hr : verify_with invs ctx a = Except.ok r) :
    r.violations = Verifier.check st invs ∧
    r.allowed = (Verifier.check st invs).isEmpty := by
  unfold verify_with at hr
  rw [hst] at hr
  cases hr
  exact ⟨rfl, rfl⟩

/-- C8: verification on the default kernel blocks with GI-1 among the
violations exactly when the encoded hard-constraint set meets the encoded
violated-constraint set; an empty intersection keeps GI-1 out of the
violations. -/
theorem C8_gi1_blocks (ctx : Context) (a : Action) (st : CState)
    (r : VerificationResult)
    (hst : encode ctx a = Except.ok st)
    (hr : verify ctx a = Except.ok r) :
    ((∃ c ∈ st.hard_constraints, c ∈ st.violated_constraints) →
      r.allowed = false ∧ "GI-1" ∈ r.violations) ∧
    ((∀ c ∈ st.hard_constraints, c ∉ st.violated_constraints) →
      "GI-1" ∉ r.violations) := by
  obtain ⟨hviol, hallow⟩ := verify_with_ok default_invariants ctx a st r hst hr
  constructor
  · intro hmeet
    have hgi : "GI-1" ∈ Verifier.check st default_invariants :=
      (mem_check_default_gi1 st).mpr ((GI1_check_false_iff st).mpr hmeet)
    refine ⟨?_, hviol ▸ hgi⟩
    rw [hallow]
    rcases h : (Verifier.check st default_invariants).isEmpty with _ | _
    · rfl
    · rw [List.isEmpty_iff] at h
      exact absurd (h ▸ hgi) (List.not_mem_nil _)
  · intro hdisj hmem
    have hfail : GI1_check st = false := (mem_check_default_gi1 st).mp (hviol ▸ hmem)
    rw [GI1_check_false_iff] at hfail
    obtain ⟨c, hc1, hc2⟩ := hfail
    exact hdisj c hc1 hc2

/-- Witness for C8: a hard constraint the action violates makes the
default kernel block with GI-1. -/
theorem C8_witness : r_hazmat.allowed = false ∧ "GI-1" ∈ r_hazmat.violations :=
  (C8_gi1_blocks ctx_hazmat act_hazmat st_hazmat r_hazmat (by decide) (by decide)).1
    ⟨"no_residential_hazmat", by decide, by decide⟩

theorem find?_eq_some_split {α : Type} (p : α → Bool) :
    ∀ (l : List α) (x : α), l.find? p = some x →
      ∃ s t, l = s ++ x :: t ∧ (∀ m ∈ s, p m = false) ∧ p x = true := by
  intro l
  induction l with
  | nil => intro x hx; cases hx
  | cons a l ih =>
    intro x hx
    rcases hpa : p a with _ | _
    · rw [List.find?_cons_of_neg _ (by simp [hpa])] at hx
      obtain ⟨s, t, hl, hs, hpx⟩ := ih x hx
      exact ⟨a :: s, t, by rw [hl]; rfl,
        fun m hm => by
          rcases List.mem_cons.mp hm with rfl | hm
          · exact hpa
          · exact hs m hm, hpx⟩
    · rw [List.find?_cons_of_pos _ hpa] at hx
      cases hx
      exact ⟨[], l, rfl, by simp, hpa⟩

/-- C5: on a non-empty violation list the registry dispatches on the first
name of the fixed order BG-1, GI-1, CMP-1, AIT-1, EXP-1, MAP-1 occurring in
the list, falls back to the first listed violation when none of the six
occur, and in particular a BG-1 plus AIT-1 conflict always yields the BG-1
remediation whose action tag is require_human_authority. -/
theorem C5_handler_priority (vs : List String) (ctx : Context) (a : Action)
    (h : vs ≠ []) :
    handle vs ctx a = get_handler (prioritize_violations vs) ctx a vs ∧
    ((∃ s t, priority_order = s ++ prioritize_violations vs :: t ∧
        prioritize_violations vs ∈ vs ∧ ∀ m ∈ s, m ∉ vs) ∨
      ((∀ m ∈ priority_order, m ∉ vs) ∧ vs.head? = some (prioritize_violations vs))) ∧
    ("BG-1" ∈ vs → "AIT-1" ∈ vs →
      (handle vs ctx a).lookup "action" = some (Value.str "require_human_authority")) := by
  have hne : vs.isEmpty = false := by
    cases vs with
    | nil => exact absurd rfl h
    | cons x t => rfl
  refine ⟨by rw [handle, hne]; rfl, ?_, ?_⟩
  · rcases hfind : priority_order.find? (fun n => vs.contains n) with _ | p
    · right
      refine ⟨fun m hm => by
        have := List.find?_eq_none.mp hfind m hm
        simpa [List.elem_iff] using this, ?_⟩
      cases vs with
      | nil => exact absurd rfl h
      | cons x t =>
        unfold prioritize_violations
        rw [hfind]
        rfl
    · left
      obtain ⟨s, t, hl, hs, hp⟩ := find?_eq_some_split _ _ _ hfind
      have hpv : prioritize_violations vs = p := by
        unfold prioritize_violations
        rw [hfind]
      refine ⟨s, t, by rw [hpv]; exact hl, ?_, ?_⟩
      · rw [hpv]
        exact List.elem_iff.mp hp
      · intro m hm
        have := hs m hm
        simpa [List.elem_iff] using this
  · intro hbg _
    have hcont : vs.contains "BG-1" = true := List.elem_iff.mpr hbg
    have hfind : priority_order.find? (fun n => vs.contains n) = some "BG-1" := by
      unfold priority_order
      exact List.find?_cons_of_pos _ hcont
    have hpv : prioritize_violations vs = "BG-1" := by
      unfold prioritize_violations
      rw [hfind]
    rw [handle, hne, hpv]
    rfl

/-- Witness for C5: with both AIT-1 and BG-1 violated the remediation is
the BG-1 one. -/
theorem C5_witness :
    (handle ["AIT-1", "BG-1"] {} {}).lookup "action" =
      some (Value.str "require_human_authority") :=
  (C5_handler_priority ["AIT-1", "BG-1"] {} {} (by decide)).2.2
    (by decide) (by decide)

theorem mem_insert_all (n : String) :
    ∀ (l acc : List String), n ∈ insert_all acc l ↔ n ∈ acc ∨ n ∈ l := by
  intro l
  induction l with
  | nil => intro acc; simp [insert_all]
  | cons x l ih =>
    intro acc
    have hstep : insert_all acc (x :: l) =
        insert_all (if acc.contains x then acc else acc ++ [x]) l := rfl
    rw [hstep, ih]
    by_cases hx : acc.contains x
    · rw [if_pos hx]
      have hxa : x ∈ acc := List.elem_iff.mp hx
      constructor
      · rintro (hn | hn)
        · exact Or.inl hn
        · exact Or.inr (List.mem_cons_of_mem _ hn)
      · rintro (hn | hn)
        · exact Or.inl hn
        · rcases List.mem_cons.mp hn with rfl | hn
          · exact Or.inl hxa
          · exact Or.inr hn
    · rw [if_neg hx]
      simp only [List.mem_append, List.mem_singleton, List.mem_cons]
      tauto

theorem mem_union_foldl (n : String) :
    ∀ (rs : List VerificationResult) (acc : List String),
      n ∈ rs.foldl (fun acc r => insert_all acc r.violations) acc ↔
        n ∈ acc ∨ ∃ r ∈ rs, n ∈ r.violations := by
  intro rs
  induction rs with
  | nil => intro acc; simp
  | cons r rs ih =>
    intro acc
    have hstep : (r :: rs).foldl (fun acc r => insert_all acc r.violations) acc =
        rs.foldl (fun acc r => insert_all acc r.violations)
          (insert_all acc r.violations) := rfl
    rw [hstep, ih, mem_insert_all]
    simp only [List.mem_cons]
    constructor
    · rintro ((hn | hn) | ⟨r', hr', hn⟩)
      · exact Or.inl hn
      · exact Or.inr ⟨r, Or.inl rfl, hn⟩
      · exact Or.inr ⟨r', Or.inr hr', hn⟩
    · rintro (hn | ⟨r', (rfl | hr'), hn⟩)
      · exact Or.inl (Or.inl hn)
      · exact Or.inl (Or.inr hn)
      · exact Or.inr ⟨r', hr', hn⟩

theorem mem_union_violations (n : String) (rs : List VerificationResult) :
    n ∈ union_violations rs ↔ ∃ r ∈ rs, n ∈ r.violations := by
  have : union_violations rs =
      rs.foldl (fun acc r => insert_all acc r.violations) [] := rfl
  rw [this, mem_union_foldl]
  simp

theorem verify_batch_ok_forall2 (invs : List Invariant) (ctx : Context) :
    ∀ (acts : List Action) (rs : List VerificationResult),
      verify_batch invs ctx acts = Except.ok rs →
      List.Forall₂ (fun a r => verify_with invs ctx a = Except.ok r) acts rs := by
  intro acts
  induction acts with
  | nil =>
    intro rs hrs
    cases hrs
    exact List.Forall₂.nil
  | cons a acts ih =>
    intro rs hrs
    unfold verify_batch at hrs
    rcases hv : verify_with invs ctx a with e | r
    · rw [hv] at hrs; cases hrs
    · rw [hv] at hrs
      rcases hb : verify_batch invs ctx acts with e | rs'
      · rw [hb] at hrs; cases hrs
      · rw [hb] at hrs
        cases hrs
        exact List.Forall₂.cons hv (ih rs' hb)

/-- C1: conflict detection verifies each candidate independently against
the shared context; when at least one result is allowed it reports no
conflict, and when every result is blocked it returns a descriptor whose
conflicting invariants are exactly the union of the violated names, whose
attempted-action count is the number of candidates, and whose escalation
priority is high. -/
theorem C1_conflict_detection (invs : List Invariant) (ctx : Context)
    (acts : List Action) (rs : List VerificationResult)
    (h : verify_batch invs ctx acts = Except.ok rs) :
    List.Forall₂ (fun a r => verify_with invs ctx a = Except.ok r) acts rs ∧
    ((∃ r ∈ rs, r.allowed = true) →
      check_invariant_conflict invs ctx acts = Except.ok none) ∧
    ((∀ r ∈ rs, r.allowed = false) →
      ∃ c, check_invariant_conflict invs ctx acts = Except.ok (some c) ∧
        (∀ n, n ∈ c.conflicting_invariants ↔ ∃ r ∈ rs, n ∈ r.violations) ∧
        c.attempted_actions = acts.length ∧
        c.escalation_priority = "high") := by
  have hcc : check_invariant_conflict invs ctx acts =
      (if rs.any (fun r => r.allowed) then Except.ok none
       else Except.ok (some {
         type := "invariant_conflict"
         message := "No valid action exists - invariants in conflict"
         conflicting_invariants := union_violations rs
         attempted_actions := acts.length
         remediation := "human_decision_required"
         escalation_priority := "high" })) := by
    unfold check_invariant_conflict
    rw [h]
  refine ⟨verify_batch_ok_forall2 invs ctx acts rs h, ?_, ?_⟩
  · rintro ⟨r, hr, hall⟩
    rw [hcc, if_pos (List.any_eq_true.mpr ⟨r, hr, hall⟩)]
  · intro hall
    have hany : rs.any (fun r => r.allowed) = false :=
      List.any_eq_false.mpr (fun r hr => by simp [hall r hr])
    rw [hcc, if_neg (by simp [hany])]
    exact ⟨_, rfl, fun n => mem_union_violations n rs, rfl, rfl⟩

/-- Witness for C1: a single blocked candidate yields a conflict
descriptor with the violated name, one attempted action and high
priority. -/
theorem C1_witness :
    ∃ c, check_invariant_conflict default_invariants {} [act_bind] =
        Except.ok (some c) ∧
      (∀ n, n ∈ c.conflicting_invariants ↔ ∃ r ∈ [r_bind], n ∈ r.violations) ∧
      c.attempted_actions = 1 ∧
      c.escalation_priority = "high" :=
  (C1_conflict_detection default_invariants {} [act_bind] [r_bind] (by decide)).2.2
    (by decide)

theorem violated_of_ok (a : Action) : ∀ (l : List String),
    (∀ c ∈ l, py_startswith c "time_limit_" = true →
      (py_int (String.mk ((split_chars '_' c.data).getLastD []))).isSome) →
    ∃ vs, violated_of a l = Except.ok vs := by
  intro l
  induction l with
  | nil => intro _; exact ⟨[], rfl⟩
  | cons c t ih =>
    intro hc
    obtain ⟨vs, hvs⟩ := ih (fun c' hc' => hc c' (List.mem_cons_of_mem _ hc'))
    have hone : ∃ v, action_violates_constraint a c = Except.ok v := by
      unfold action_violates_constraint
      by_cases h1 : c = "no_residential_hazmat"
      · rw [if_pos h1]
        exact ⟨_, rfl⟩
      · rw [if_neg h1]
        by_cases h2 : py_startswith c "time_limit_" = true
        · rw [if_pos h2]
          have hsome := hc c (List.mem_cons_self _ _) h2
          rcases hp : py_int (String.mk ((split_chars '_' c.data).getLastD [])) with _ | limit
          · rw [hp] at hsome
            cases hsome
          · refine ⟨decide (a.estimated_time_minutes > limit), ?_⟩
            simp only [hp]
        · rw [if_neg h2]
          exact ⟨_, rfl⟩
    obtain ⟨v, hv⟩ := hone
    refine ⟨if v then c :: vs else vs, ?_⟩
    unfold violated_of
    rw [hv, hvs]

/-- C3 amended: the encoder terminates and applies the documented
fallbacks provided none of the slots whose stored value Python would call
a method on, iterate, or parse is pathological: consequence_bearer,
decision_maker and the action type are not explicit nulls,
violates_constraints and hard_constraints are not explicit nulls, and
every time_limit hard constraint has a numeric suffix.  Each excluded case
raises (see the counterexample). -/
theorem C3_encode_total_amended (ctx : Context) (a : Action)
    (hty : a.type ≠ PyStr.null)
    (hcb : ctx.consequence_bearer ≠ PyStr.null)
    (hdm : ctx.decision_maker ≠ PyStr.null)
    (hvc : a.violates_constraints ≠ PyList.null)
    (hhc : ctx.hard_constraints ≠ PyList.null)
    (hc : ∀ c ∈ py_list_elems ctx.hard_constraints,
      py_startswith c "time_limit_" = true →
      (py_int (String.mk ((split_chars '_' c.data).getLastD []))).isSome) :
    ∃ st, encode ctx a = Except.ok st ∧
      st.authority_level = ctx.authority_level.getD "none" ∧
      st.requires_authority = a.requires_authority.getD "none" ∧
      (a.violates_constraints = PyList.absent →
        py_list_elems ctx.hard_constraints = [] →
        st.violated_constraints = []) := by
  obtain ⟨isb, hisb⟩ : ∃ b, is_binding_action a = Except.ok b := by
    unfold is_binding_action
    rcases hx : a.type with _ | _ | s
    · exact ⟨_, rfl⟩
    · exact absurd hx hty
    · exact ⟨_, rfl⟩
  obtain ⟨b, hb⟩ : ∃ b, has_human_authority ctx = Except.ok b := by
    unfold has_human_authority
    rcases hx : ctx.consequence_bearer with _ | _ | s
    · rcases hy : ctx.decision_maker with _ | _ | s2
      · exact ⟨_, rfl⟩
      · exact absurd hy hdm
      · exact ⟨_, rfl⟩
    · exact absurd hx hcb
    · rcases hy : ctx.decision_maker with _ | _ | s2
      · exact ⟨_, rfl⟩
      · exact absurd hy hdm
      · exact ⟨_, rfl⟩
  obtain ⟨base, hbase⟩ : ∃ l, base_violations a = Except.ok l ∧
      (a.violates_constraints = PyList.absent → l = []) := by
    unfold base_violations
    rcases hx : a.violates_constraints with _ | _ | l
    · exact ⟨[], rfl, fun _ => rfl⟩
    · exact absurd hx hvc
    · exact ⟨l, rfl, fun hcontra => by cases hcontra⟩
  obtain ⟨hbase1, hbase2⟩ := hbase
  obtain ⟨vs, hvs⟩ := violated_of_ok a (py_list_elems ctx.hard_constraints) hc
  have hccv : check_constraint_violations ctx a = Except.ok (base ++ vs) := by
    unfold check_constraint_violations
    rw [hbase1]
    rcases hx : ctx.hard_constraints with _ | _ | l
    · rw [hx] at hvs
      show (match violated_of a (py_list_elems PyList.absent) with
        | Except.error e => Except.error e
        | Except.ok vs => Except.ok (base ++ vs)) = Except.ok (base ++ vs)
      rw [hvs]
    · exact absurd hx hhc
    · rw [hx] at hvs
      show (match violated_of a (py_list_elems (PyList.list l)) with
        | Except.error e => Except.error e
        | Except.ok vs => Except.ok (base ++ vs)) = Except.ok (base ++ vs)
      rw [hvs]
  unfold encode
  rw [hisb, hb, hccv]
  refine ⟨_, rfl, rfl, rfl, ?_⟩
  intro hv hh
  rw [hh] at hvs
  have hvs' : vs = [] := by
    have h3 : Except.ok (ε := EncError) ([] : List String) = Except.ok vs := hvs
    cases h3
    rfl
  simp [hbase2 hv, hvs']

/-- C3 counterexample: the encoder raises at each input class the claim
says it tolerates: AttributeError for an explicit null
consequence_bearer, decision_maker or action type, TypeError for an
explicit null violates_constraints or hard_constraints, and ValueError
for a time_limit hard constraint with a non-numeric suffix, refuting the
claim that it never fails. -/
theorem C3_counterexample :
    encode { consequence_bearer := PyStr.null } {} =
      Except.error (EncError.attrNone "consequence_bearer") ∧
    encode { decision_maker := PyStr.null } {} =
      Except.error (EncError.attrNone "decision_maker") ∧
    encode {} { type := PyStr.null } =
      Except.error (EncError.attrNone "type") ∧
    encode {} { violates_constraints := PyList.null } =
      Except.error (EncError.typeErr "violates_constraints") ∧
    encode { hard_constraints := PyList.null } {} =
      Except.error (EncError.typeErr "hard_constraints") ∧
    encode { hard_constraints := PyList.list ["time_limit_abc"] } {} =
      Except.error (EncError.intParse "abc") := by
  decide

/-- Witness for the amended C3 at the empty context and action. -/
theorem C3_witness :
    ∃ st, encode {} {} = Except.ok st ∧
      st.authority_level = "none" ∧
      st.requires_authority = "none" ∧
      (({} : Action).violates_constraints = PyList.absent →
        py_list_elems ({} : Context).hard_constraints = [] →
        st.violated_constraints = []) :=
  C3_encode_total_amended {} {} (by decide) (by decide) (by decide)
    (by decide) (by decide) (by decide)

theorem chain_check_append_iff (hashFn : EntryData → String) (e : LogEntry) :
    ∀ (l : List LogEntry) (p : Option String),
      chain_check hashFn p (l ++ [e]) = true ↔
        (chain_check hashFn p l = true ∧
          e.data.previous_hash = last_hash p l ∧ hashFn e.data = e.hash) := by
  intro l
  induction l with
  | nil =>
    intro p
    simp [chain_check, last_hash, Bool.and_eq_true, beq_iff_eq]
  | cons x t ih =>
    intro p
    rcases hcond : (x.data.previous_hash == p && hashFn x.data == x.hash) with _ | _
    · simp [chain_check, hcond, last_hash]
    · simp [chain_check, hcond, last_hash, ih]

theorem last_hash_append (e : LogEntry) :
    ∀ (l : List LogEntry) (p : Option String),
      last_hash p (l ++ [e]) = some e.hash := by
  intro l
  induction l with
  | nil => intro p; rfl
  | cons x t ih => intro p; exact ih (some x.hash)

theorem chain_check_cons (hashFn : EntryData → String) (p : Option String)
    (en : LogEntry) (rest : List LogEntry) :
    chain_check hashFn p (en :: rest) =
      if (en.data.previous_hash == p && hashFn en.data == en.hash) then
        chain_check hashFn (some en.hash) rest
      else false := rfl

theorem log_verification_chain_ok (hashFn : EntryData → String)
    (st : LoggerState) (aid ts : String) (ctx act : List (String × Value))
    (r : VerificationResult) (lat : Int) (md : List (String × Value))
    (hok : chain_ok hashFn st) :
    chain_ok hashFn (log_verification hashFn st aid ts ctx act r lat md) := by
  obtain ⟨h1, h2⟩ := hok
  have hlogs : (log_verification hashFn st aid ts ctx act r lat md).logs =
      st.logs ++ [⟨log_entry_data st aid ts ctx act r lat md,
        hashFn (log_entry_data st aid ts ctx act r lat md)⟩] := rfl
  constructor
  · show chain_check hashFn none (log_verification hashFn st aid ts ctx act r lat md).logs = true
    rw [hlogs, chain_check_append_iff]
    exact ⟨h1, h2, rfl⟩
  · show (log_verification hashFn st aid ts ctx act r lat md).previous_hash =
      last_hash none (log_verification hashFn st aid ts ctx act r lat md).logs
    rw [hlogs, last_hash_append]
    rfl

theorem run_calls_chain_ok (hashFn : EntryData → String) :
    ∀ (calls : List LogCall) (st : LoggerState), chain_ok hashFn st →
      chain_ok hashFn (run_calls hashFn st calls) := by
  intro calls
  induction calls with
  | nil => intro st h; exact h
  | cons c rest ih =>
    intro st h
    exact ih _ (log_verification_chain_ok hashFn st c.audit_id c.timestamp
      c.context c.action c.result c.latency c.metadata h)

theorem chain_tamper (hashFn : EntryData → String) :
    ∀ (l : List LogEntry) (p : Option String) (i : Nat) (e : LogEntry)
      (d' : EntryData),
      chain_check hashFn p l = true → l.get? i = some e →
      hashFn d' ≠ hashFn e.data →
      chain_check hashFn p (set_entry_data l i d') = false := by
  intro l
  induction l with
  | nil =>
    intro p i e d' _ hget
    cases hget
  | cons x t ih =>
    intro p i e d' hok hget hne
    rw [chain_check_cons] at hok
    rcases hcond : (x.data.previous_hash == p && hashFn x.data == x.hash) with _ | _
    · rw [hcond] at hok
      simp at hok
    · rw [hcond] at hok
      simp only [if_true] at hok
      cases i with
      | zero =>
        have hx : x = e := by
          have := hget
          simp only [List.get?] at this
          exact Option.some.inj this
        subst hx
        show chain_check hashFn p (LogEntry.mk d' x.hash :: t) = false
        rw [chain_check_cons]
        rcases hcond2 : (d'.previous_hash == p && hashFn d' == x.hash) with _ | _
        · rfl
        · exfalso
          have h1 : hashFn x.data = x.hash := by
            simp only [Bool.and_eq_true, beq_iff_eq] at hcond
            exact hcond.2
          have h2 : hashFn d' = x.hash := by
            simp only [Bool.and_eq_true, beq_iff_eq] at hcond2
            exact hcond2.2
          exact hne (h2.trans h1.symm)
      | succ i =>
        have hget' : t.get? i = some e := hget
        show chain_check hashFn p (x :: set_entry_data t i d') = false
        rw [chain_check_cons, hcond]
        simpa using ih (some x.hash) i e d' hok hget' hne

/-- C4: a log produced by any sequence of log_verification calls on a
fresh logger passes verify_chain; replacing the stored data fields of any
single entry while keeping its stored hash, when the hash function
distinguishes the new data from the old (for SHA-256, absence of a
collision), makes verify_chain fail. -/
theorem C4_audit_chain (hashFn : EntryData → String) (calls : List LogCall)
    (i : Nat) (e : LogEntry) (d' : EntryData)
    (hget : (run_calls hashFn init_logger calls).logs.get? i = some e)
    (hne : hashFn d' ≠ hashFn e.data) :
    verify_chain hashFn (run_calls hashFn init_logger calls) = true ∧
    verify_chain hashFn
      ⟨set_entry_data (run_calls hashFn init_logger calls).logs i d',
        (run_calls hashFn init_logger calls).previous_hash⟩ = false := by
  have hok := run_calls_chain_ok hashFn calls init_logger ⟨rfl, rfl⟩
  exact ⟨hok.1, chain_tamper hashFn _ none i e d' hok.1 hget hne⟩

/-- Witness for C4: one honest call verifies; flipping its allowed flag
without recomputing the hash is detected. -/
theorem C4_witness :
    verify_chain hash_allowed (run_calls hash_allowed init_logger [call0]) = true ∧
    verify_chain hash_allowed
      ⟨set_entry_data (run_calls hash_allowed init_logger [call0]).logs 0 data0_tampered,
        (run_calls hash_allowed init_logger [call0]).previous_hash⟩ = false :=
  C4_audit_chain hash_allowed [call0] 0 entry0 data0_tampered (by decide) (by decide)

end GovKernel
